import Mathlib

/-!
Verification of the simperby state-persistence substrate:
the in-memory checkpointed key-value store (`kv-storage/src/memory.rs`)
and the raw repository contract (`repository/src/raw.rs`).
-/

set_option autoImplicit false

/-- Hash256: opaque 32-byte content digest used as the key type.
The store only needs decidable equality on it, so it is embedded as `Nat`. -/
def Hash256 : Type := Nat

instance : DecidableEq Hash256 := inferInstanceAs (DecidableEq Nat)

instance : OfNat Hash256 0 := ⟨(0 : Nat)⟩

instance : OfNat Hash256 1 := ⟨(1 : Nat)⟩

/-- A stored value: `Vec<u8>` embedded as a list of bytes-as-naturals. -/
def Value : Type := List Nat

instance : DecidableEq Value := inferInstanceAs (DecidableEq (List Nat))

/-- Modelled from the spec: the kv-storage `Error` type is not under `src/`
(only `memory.rs` which uses it is). §7 gives the taxonomy; `memory.rs`
only ever produces `NotFound`, and `Unknown` is kept so that `NotFound`
is a distinguishable kind rather than the sole inhabitant. -/
inductive KvError where
  | NotFound : KvError
  | Unknown : String → KvError
deriving DecidableEq, Repr

/-- `Snapshot = HashMap<Hash256, Vec<u8>>` from `memory.rs`, embedded
extensionally as a partial map from keys to values. -/
def Snapshot : Type := Hash256 → Option Value

/-- `Snapshot::new()`: the empty map. -/
def Snapshot.empty : Snapshot := fun _ => none

/-- `HashMap::insert`: map `key` to `value`, leaving other keys unchanged. -/
def Snapshot.insert (s : Snapshot) (key : Hash256) (value : Value) : Snapshot :=
  fun k => if k = key then some value else s k

/-- `HashMap::remove`: drop `key`, leaving other keys unchanged. -/
def Snapshot.erase (s : Snapshot) (key : Hash256) : Snapshot :=
  fun k => if k = key then none else s k

/-- `MemoryDB` from `memory.rs`: the current revision and the checkpoint. -/
structure MemoryDB where
  current_revision : Snapshot
  checkpoint : Snapshot

/-- `MemoryDB::new()`: both snapshots start empty. -/
def MemoryDB.new : MemoryDB :=
  { current_revision := Snapshot.empty, checkpoint := Snapshot.empty }

/-- `MemoryDB::open(&self)`: `self.clone()` — a full copy of both snapshots. -/
def MemoryDB.openDB (db : MemoryDB) : MemoryDB :=
  { current_revision := db.current_revision, checkpoint := db.checkpoint }

/-- `Option::ok_or`: Rust's conversion of an `Option` into a `Result`,
used by `remove`, `get` and `contain` in `memory.rs`. -/
def okOr {α β : Type} (o : Option α) (e : β) : Except β α :=
  match o with
  | some a => Except.ok a
  | none => Except.error e

/-- `commit_checkpoint`: overwrite `checkpoint` with a copy of
`current_revision`; always returns `Ok(())`. -/
def MemoryDB.commit_checkpoint (db : MemoryDB) : Except KvError Unit × MemoryDB :=
  (Except.ok (), { db with checkpoint := db.current_revision })

/-- `revert_to_latest_checkpoint`: overwrite `current_revision` with a copy
of `checkpoint`; always returns `Ok(())`. -/
def MemoryDB.revert_to_latest_checkpoint (db : MemoryDB) : Except KvError Unit × MemoryDB :=
  (Except.ok (), { db with current_revision := db.checkpoint })

/-- `insert_or_update`: upsert `key → value` into `current_revision`;
always returns `Ok(())`. -/
def MemoryDB.insert_or_update (db : MemoryDB) (key : Hash256) (value : Value) :
    Except KvError Unit × MemoryDB :=
  (Except.ok (), { db with current_revision := db.current_revision.insert key value })

/-- `remove`: `self.current_revision.remove(&key).ok_or(Error::NotFound).map(|_| ())`.
When the key is absent the map is unchanged and `NotFound` is returned. -/
def MemoryDB.remove (db : MemoryDB) (key : Hash256) : Except KvError Unit × MemoryDB :=
  match okOr (db.current_revision key) KvError.NotFound with
  | Except.error e => (Except.error e, db)
  | Except.ok _ => (Except.ok (), { db with current_revision := db.current_revision.erase key })

/-- `get`: `self.current_revision.get(&key).ok_or(Error::NotFound).map(|v| v.to_vec())`. -/
def MemoryDB.get (db : MemoryDB) (key : Hash256) : Except KvError Value :=
  (okOr (db.current_revision key) KvError.NotFound).map (fun v => v)

/-- `contain`: `self.current_revision.get(&key).ok_or(Error::NotFound)
.map_or_else(|_| Ok(false), |_| Ok(true))`. -/
def MemoryDB.contain (db : MemoryDB) (key : Hash256) : Except KvError Bool :=
  match okOr (db.current_revision key) KvError.NotFound with
  | Except.error _ => Except.ok false
  | Except.ok _ => Except.ok true

/-- A mutation call of the checkpoint-isolation claims: one
`insert_or_update` or `remove` call on the store. -/
inductive MutOp where
  | insert : Hash256 → Value → MutOp
  | removeKey : Hash256 → MutOp
deriving DecidableEq

/-- Apply one mutation call; the state component of the call's result
(`remove` on an absent key returns an error and leaves the store as is). -/
def applyMutOp (db : MemoryDB) : MutOp → MemoryDB
  | MutOp.insert k v => (db.insert_or_update k v).2
  | MutOp.removeKey k => (db.remove k).2

/-- Apply a sequence of mutation calls in order. -/
def applyMutOps (db : MemoryDB) (ops : List MutOp) : MemoryDB :=
  ops.foldl applyMutOp db

lemma applyMutOp_checkpoint (db : MemoryDB) (op : MutOp) :
    (applyMutOp db op).checkpoint = db.checkpoint := by
  cases op with
  | insert k v => rfl
  | removeKey k =>
    simp only [applyMutOp, MemoryDB.remove]
    cases okOr (db.current_revision k) KvError.NotFound <;> rfl

lemma applyMutOps_checkpoint (ops : List MutOp) (db : MemoryDB) :
    (applyMutOps db ops).checkpoint = db.checkpoint := by
  induction ops generalizing db with
  | nil => rfl
  | cons op ops ih =>
    simp only [applyMutOps, List.foldl_cons] at *
    rw [ih, applyMutOp_checkpoint]

/-- C1: checkpoint isolation — for every store state and every sequence of
`insert_or_update`/`remove` calls performed after a `commit_checkpoint`, a
subsequent `revert_to_latest_checkpoint` restores `current_revision` to
exactly the state it had at the moment of that checkpoint, discarding all
intervening mutations. -/
theorem checkpoint_isolation (db : MemoryDB) (ops : List MutOp) :
    ((applyMutOps (db.commit_checkpoint).2 ops).revert_to_latest_checkpoint).2.current_revision
      = db.current_revision := by
  show (applyMutOps (db.commit_checkpoint).2 ops).checkpoint = db.current_revision
  rw [applyMutOps_checkpoint]
  rfl

/-- C8: empty-store behavior — on a store freshly created by `new`,
`get` fails with `NotFound` and `contain` returns `Ok(false)`, for every key. -/
theorem empty_store_behavior (k : Hash256) :
    MemoryDB.new.get k = Except.error KvError.NotFound ∧
      MemoryDB.new.contain k = Except.ok false := by
  exact ⟨rfl, rfl⟩

/-- Fold a list of `(key, value)` pairs into the store by `insert_or_update`. -/
def insertAll (db : MemoryDB) (kvs : List (Hash256 × Value)) : MemoryDB :=
  kvs.foldl (fun d kv => (d.insert_or_update kv.1 kv.2).2) db

lemma insertAll_checkpoint (kvs : List (Hash256 × Value)) (db : MemoryDB) :
    (insertAll db kvs).checkpoint = db.checkpoint := by
  induction kvs generalizing db with
  | nil => rfl
  | cons kv kvs ih =>
    simp only [insertAll, List.foldl_cons] at *
    rw [ih]
    rfl

/-- C10: revert on a never-checkpointed store empties it — a store created
by `new` has an empty checkpoint, so after any sequence of
`insert_or_update` calls without a `commit_checkpoint`,
`revert_to_latest_checkpoint` makes `get` fail with `NotFound` on every key. -/
theorem revert_without_checkpoint_empties (kvs : List (Hash256 × Value)) (k : Hash256) :
    ((insertAll MemoryDB.new kvs).revert_to_latest_checkpoint).2.get k
      = Except.error KvError.NotFound := by
  show (okOr ((insertAll MemoryDB.new kvs).checkpoint k) KvError.NotFound).map _
        = Except.error KvError.NotFound
  rw [insertAll_checkpoint]
  rfl

/-- C2: checkpoint monotonicity (single-generation history) — after
`commit_checkpoint`, mutations, and a second `commit_checkpoint`,
`revert_to_latest_checkpoint` restores the state at the second checkpoint;
when the mutations changed the state, the state at the first checkpoint is
no longer what revert restores. -/
theorem checkpoint_monotonicity (db : MemoryDB) (ops : List MutOp)
    (h : (applyMutOps (db.commit_checkpoint).2 ops).current_revision ≠ db.current_revision) :
    (((applyMutOps (db.commit_checkpoint).2 ops).commit_checkpoint).2.revert_to_latest_checkpoint).2.current_revision
        = (applyMutOps (db.commit_checkpoint).2 ops).current_revision
      ∧ (((applyMutOps (db.commit_checkpoint).2 ops).commit_checkpoint).2.revert_to_latest_checkpoint).2.current_revision
        ≠ db.current_revision :=
  ⟨rfl, h⟩

/-- Witness for C2 at a concrete input: fresh store, one insertion between
the two checkpoints. -/
theorem checkpoint_monotonicity_witness :
    (((applyMutOps (MemoryDB.new.commit_checkpoint).2 [MutOp.insert 0 [1]]).commit_checkpoint).2.revert_to_latest_checkpoint).2.current_revision
        = (applyMutOps (MemoryDB.new.commit_checkpoint).2 [MutOp.insert 0 [1]]).current_revision
      ∧ (((applyMutOps (MemoryDB.new.commit_checkpoint).2 [MutOp.insert 0 [1]]).commit_checkpoint).2.revert_to_latest_checkpoint).2.current_revision
        ≠ MemoryDB.new.current_revision :=
  checkpoint_monotonicity MemoryDB.new [MutOp.insert 0 [1]]
    (fun heq => Option.noConfusion (congrFun heq 0))

/-- C5: `remove` fails with `NotFound` exactly when the key is absent from
`current_revision`; the checkpoint is never touched; on failure the store is
unchanged; on success exactly the removed key is deleted. -/
theorem remove_spec (db : MemoryDB) (k : Hash256) :
    ((db.remove k).1 = Except.error KvError.NotFound ↔ db.current_revision k = none)
      ∧ (db.remove k).2.checkpoint = db.checkpoint
      ∧ (db.current_revision k = none → (db.remove k).2 = db)
      ∧ ∀ v, db.current_revision k = some v →
          (db.remove k).1 = Except.ok ()
            ∧ (db.remove k).2.current_revision k = none
            ∧ ∀ j, j ≠ k → (db.remove k).2.current_revision j = db.current_revision j := by
  cases hv : db.current_revision k with
  | none =>
    refine ⟨?_, ?_, ?_, ?_⟩
    · simp [MemoryDB.remove, okOr, hv]
    · simp [MemoryDB.remove, okOr, hv]
    · intro _
      simp [MemoryDB.remove, okOr, hv]
    · intro v hvv
      exact Option.noConfusion hvv
  | some v0 =>
    refine ⟨?_, ?_, ?_, ?_⟩
    · simp [MemoryDB.remove, okOr, hv]
    · simp [MemoryDB.remove, okOr, hv]
    · intro h0
      exact Option.noConfusion h0
    · intro v hvv
      refine ⟨?_, ?_, ?_⟩
      · simp [MemoryDB.remove, okOr, hv]
      · simp [MemoryDB.remove, okOr, hv, Snapshot.erase]
      · intro j hj
        simp [MemoryDB.remove, okOr, hv, Snapshot.erase, hj]

/-- Witness for C5 at concrete inputs: removal fails on the empty store and
succeeds, deleting the key, after an insertion. -/
theorem remove_spec_witness :
    (MemoryDB.new.remove 0).1 = Except.error KvError.NotFound
      ∧ (((MemoryDB.new.insert_or_update 0 [1]).2.remove 0).1 = Except.ok ())
      ∧ ((MemoryDB.new.insert_or_update 0 [1]).2.remove 0).2.current_revision 0 = none :=
  ⟨(remove_spec MemoryDB.new 0).1.mpr rfl,
   ((remove_spec (MemoryDB.new.insert_or_update 0 [1]).2 0).2.2.2 [1] rfl).1,
   ((remove_spec (MemoryDB.new.insert_or_update 0 [1]).2 0).2.2.2 [1] rfl).2.1⟩

/-- C6: `contain` never fails — it returns `Ok` of exactly the presence of
the key in `current_revision`, never propagating the `NotFound` of the
underlying lookup. -/
theorem contain_never_fails (db : MemoryDB) (k : Hash256) :
    db.contain k = Except.ok ((db.current_revision k).isSome) := by
  cases hv : db.current_revision k <;> simp [MemoryDB.contain, okOr, hv]

/-- One call of the full `KVStorage` interface of `memory.rs`, as a value:
`insert_or_update`, `remove`, `commit_checkpoint` or
`revert_to_latest_checkpoint`. -/
inductive StoreOp where
  | insert : Hash256 → Value → StoreOp
  | removeKey : Hash256 → StoreOp
  | commitCp : StoreOp
  | revertCp : StoreOp
deriving DecidableEq

/-- Apply one interface call to the store; the state component of its result. -/
def applyStoreOp (db : MemoryDB) : StoreOp → MemoryDB
  | StoreOp.insert k v => (db.insert_or_update k v).2
  | StoreOp.removeKey k => (db.remove k).2
  | StoreOp.commitCp => (db.commit_checkpoint).2
  | StoreOp.revertCp => (db.revert_to_latest_checkpoint).2

/-- Apply a sequence of interface calls in order. -/
def applyStoreOps (db : MemoryDB) (ops : List StoreOp) : MemoryDB :=
  ops.foldl applyStoreOp db

/-- C3 counterexample: the claim as stated fails — a later
`insert_or_update` of the same key is neither a removal of the key nor a
revert, yet after it `get` no longer returns the originally inserted value.
Concretely: insert key 0 with value `[1]`, then insert key 0 with value
`[2]`; `get 0` returns `Ok [2]`, not `Ok [1]`. -/
theorem lookup_consistency_cex :
    ¬ ∀ (db : MemoryDB) (k : Hash256) (v : Value) (ops : List StoreOp),
        (∀ op ∈ ops, op ≠ StoreOp.removeKey k ∧ op ≠ StoreOp.revertCp) →
        (applyStoreOps ((db.insert_or_update k v).2) ops).get k = Except.ok v := by
  intro hclaim
  have h2 := hclaim MemoryDB.new 0 [1] [StoreOp.insert 0 [2]] ?side
  case side =>
    intro op hop
    simp only [List.mem_singleton] at hop
    subst hop
    exact ⟨fun hc => StoreOp.noConfusion hc, fun hc => StoreOp.noConfusion hc⟩
  have h3 : (applyStoreOps ((MemoryDB.new.insert_or_update 0 [1]).2)
      [StoreOp.insert 0 [2]]).get 0 = Except.ok ([2] : Value) := rfl
  rw [h3] at h2
  simp at h2

/-- Whether an interface call can change what `current_revision` holds at
key `k`: an `insert_or_update` or `remove` of `k` itself, or any
`revert_to_latest_checkpoint`. -/
def affects (op : StoreOp) (k : Hash256) : Bool :=
  match op with
  | StoreOp.insert j _ => decide (j = k)
  | StoreOp.removeKey j => decide (j = k)
  | StoreOp.commitCp => false
  | StoreOp.revertCp => true

lemma applyStoreOp_current_of_not_affects (db : MemoryDB) (op : StoreOp) (k : Hash256)
    (h : affects op k = false) :
    (applyStoreOp db op).current_revision k = db.current_revision k := by
  cases op with
  | insert j v =>
    simp only [affects, decide_eq_false_iff_not] at h
    have h' : k ≠ j := fun hk => h hk.symm
    simp [applyStoreOp, MemoryDB.insert_or_update, Snapshot.insert, h']
  | removeKey j =>
    simp only [affects, decide_eq_false_iff_not] at h
    have h' : k ≠ j := fun hk => h hk.symm
    cases hv : db.current_revision j with
    | none => simp [applyStoreOp, MemoryDB.remove, okOr, hv]
    | some v0 => simp [applyStoreOp, MemoryDB.remove, okOr, hv, Snapshot.erase, h']
  | commitCp => rfl
  | revertCp => simp [affects] at h

lemma applyStoreOps_current_of_not_affects (ops : List StoreOp) (db : MemoryDB) (k : Hash256) :
    (∀ op ∈ ops, affects op k = false) →
    (applyStoreOps db ops).current_revision k = db.current_revision k := by
  induction ops generalizing db with
  | nil =>
    intro _
    rfl
  | cons op ops ih =>
    intro h
    simp only [applyStoreOps, List.foldl_cons] at *
    rw [ih (applyStoreOp db op) (fun o ho => h o (List.mem_cons_of_mem _ ho)),
      applyStoreOp_current_of_not_affects db op k (h op (List.mem_cons_self _ _))]

/-- C3 (amended): after `insert_or_update(k, v)`, `get k` returns `Ok v` and
`contain k` returns `Ok true`, and this remains so under further interface
calls as long as none of them is an `insert_or_update` of `k`, a `remove`
of `k`, or a `revert_to_latest_checkpoint`. -/
theorem lookup_consistency (db : MemoryDB) (k : Hash256) (v : Value) (ops : List StoreOp)
    (h : ∀ op ∈ ops, affects op k = false) :
    (applyStoreOps ((db.insert_or_update k v).2) ops).get k = Except.ok v
      ∧ (applyStoreOps ((db.insert_or_update k v).2) ops).contain k = Except.ok true := by
  have hc : (applyStoreOps ((db.insert_or_update k v).2) ops).current_revision k = some v := by
    rw [applyStoreOps_current_of_not_affects ops _ k h]
    simp [MemoryDB.insert_or_update, Snapshot.insert]
  exact ⟨by simp [MemoryDB.get, okOr, hc, Except.map],
    by simp [MemoryDB.contain, okOr, hc]⟩

/-- Witness for C3 (amended) at a concrete input: key 0 keeps its value
across an insertion at key 1, a checkpoint commit, and a removal of key 1. -/
theorem lookup_consistency_witness :
    (applyStoreOps ((MemoryDB.new.insert_or_update 0 [1]).2)
        [StoreOp.insert 1 [5], StoreOp.commitCp, StoreOp.removeKey 1]).get 0 = Except.ok [1]
      ∧ (applyStoreOps ((MemoryDB.new.insert_or_update 0 [1]).2)
        [StoreOp.insert 1 [5], StoreOp.commitCp, StoreOp.removeKey 1]).contain 0 = Except.ok true :=
  lookup_consistency MemoryDB.new 0 [1]
    [StoreOp.insert 1 [5], StoreOp.commitCp, StoreOp.removeKey 1] (by decide)

/-- A world of independently owned store instances, as `open` produces them:
each instance is a full copy, so they occupy distinct slots. -/
abbrev World := List MemoryDB

/-- Apply one interface call to instance `i` of the world, leaving every
other instance alone; worlds with no instance `i` are unchanged. -/
def stepWorld (w : World) (i : Nat) (op : StoreOp) : World :=
  match w[i]? with
  | none => w
  | some db => w.set i (applyStoreOp db op)

/-- The observable state of instance `j` at key `k`: what `get` and
`contain` answer there. -/
def observed (w : World) (j : Nat) (k : Hash256) :
    Option (Except KvError Value × Except KvError Bool) :=
  (w[j]?).map (fun db => (db.get k, db.contain k))

/-- C9: `open` independence — `open` returns a store whose two snapshots
equal those of its source, and applying any interface call to one instance
of a world of independent stores leaves every other instance's observable
state (`get` and `contain` at every key) unchanged. -/
theorem open_independence (db : MemoryDB) :
    ((MemoryDB.openDB db).current_revision = db.current_revision
        ∧ (MemoryDB.openDB db).checkpoint = db.checkpoint)
      ∧ ∀ (w : World) (i j : Nat) (op : StoreOp) (k : Hash256), i ≠ j →
          observed (stepWorld w i op) j k = observed w j k := by
  refine ⟨⟨rfl, rfl⟩, ?_⟩
  intro w i j op k hij
  cases hw : w[i]? with
  | none => simp [stepWorld, hw]
  | some dbi => simp [stepWorld, observed, hw, List.getElem?_set_ne hij]

/-- Witness for C9 at a concrete input: mutating instance 0 of a two-store
world leaves instance 1's observations unchanged. -/
theorem open_independence_witness :
    observed (stepWorld [MemoryDB.new, MemoryDB.new] 0 (StoreOp.insert 0 [1])) 1 0
      = observed [MemoryDB.new, MemoryDB.new] 1 0 :=
  (open_independence MemoryDB.new).2 [MemoryDB.new, MemoryDB.new] 0 1
    (StoreOp.insert 0 [1]) 0 (by decide)

/-- The error type of the raw repository layer (`repository/src/raw.rs`):
`Git2Error` wraps the backend's error (an external type, embedded by its
message), `InvalidRepository` reports a violated structural assumption, and
`Unknown` is the catch-all. These are all of its variants. -/
inductive RawError where
  | git2Error : String → RawError
  | invalidRepository : String → RawError
  | unknown : String → RawError
deriving DecidableEq

/-- Modelled from the spec: `ReservedState` lives in
`simperby_common::reserved`, outside this repository's files; §3 treats it
as an opaque structured snapshot, so it is embedded as an opaque payload. -/
structure ReservedState where
  payload : String
deriving DecidableEq

/-- `SemanticCommit` from `repository/src/raw.rs`: title, body, and — if
the commit made any change — the new reserved state. -/
structure SemanticCommit where
  title : String
  body : String
  reserved_state : Option ReservedState
deriving DecidableEq

/-- `CommitHash` (an external identifier type): a 256-bit commit id,
embedded as the commit's position in the stored history. -/
abbrev CommitHash := Nat

/-- Modelled from the spec: the payload the graph store persists for a
semantic commit — §6's codec losslessly encodes the title and body, and the
reserved-state change is recorded only when the commit made one. -/
structure CommitPayload where
  title : String
  body : String
  reserved_change : Option ReservedState

/-- Modelled from the spec: no `RawRepository` implementation is under
`src/` (`raw.rs` only declares the trait), so the backing graph store is
modelled as the list of persisted commit payloads, a commit hash
addressing one payload by position. -/
abbrev RawRepo := List CommitPayload

/-- Modelled from the spec: `create_semantic_commit` encodes the
`SemanticCommit` record through the codec and commits it, returning the
new commit's hash. -/
def create_semantic_commit (repo : RawRepo) (commit : SemanticCommit) :
    CommitHash × RawRepo :=
  (repo.length,
    repo ++ [{ title := commit.title, body := commit.body,
               reserved_change := commit.reserved_state }])

/-- Modelled from the spec: `read_semantic_commit` decodes a commit's
payload back into a `SemanticCommit`; `reserved_state` is populated only
if the commit's diff actually includes a reserved-state change. -/
def read_semantic_commit (repo : RawRepo) (commit_hash : CommitHash) :
    Except RawError SemanticCommit :=
  match repo[commit_hash]? with
  | some payload =>
      Except.ok { title := payload.title, body := payload.body,
                  reserved_state := payload.reserved_change }
  | none => Except.error (RawError.invalidRepository "unknown commit hash")

/-- C4: semantic-commit round trip — for every repository state and every
`SemanticCommit` value `s`, reading back the commit hash returned by
`create_semantic_commit s` yields exactly `s`: same title, same body, and
the same reserved-state payload (`none` included). -/
theorem semantic_commit_round_trip (repo : RawRepo) (s : SemanticCommit) :
    read_semantic_commit (create_semantic_commit repo s).2 (create_semantic_commit repo s).1
      = Except.ok s := by
  cases s with
  | mk t b r =>
    simp [read_semantic_commit, create_semantic_commit, List.getElem?_concat_length]

/-- C7 counterexample: the raw repository error type has exactly the kinds
`Git2Error`, `InvalidRepository` and `Unknown` — no inhabitant of it is
distinct from all three, so there is no separate `NotFound` kind for
missing branches, tags or commits. -/
theorem raw_error_no_notfound :
    ¬ ∃ e : RawError,
        (∀ s, e ≠ RawError.git2Error s)
          ∧ (∀ s, e ≠ RawError.invalidRepository s)
          ∧ (∀ s, e ≠ RawError.unknown s) := by
  rintro ⟨e, h1, h2, h3⟩
  cases e with
  | git2Error s => exact h1 s rfl
  | invalidRepository s => exact h2 s rfl
  | unknown s => exact h3 s rfl

/-- C7 (amended): the repository error taxonomy comprises exactly
`Git2Error` (wrapping the backend's error), `InvalidRepository` and
`Unknown` — a missing branch, tag or commit has no dedicated `NotFound`
kind and surfaces through the backend's `Git2Error` instead. -/
theorem raw_error_taxonomy (e : RawError) :
    (∃ s, e = RawError.git2Error s)
      ∨ (∃ s, e = RawError.invalidRepository s)
      ∨ (∃ s, e = RawError.unknown s) := by
  cases e with
  | git2Error s => exact Or.inl ⟨s, rfl⟩
  | invalidRepository s => exact Or.inr (Or.inl ⟨s, rfl⟩)
  | unknown s => exact Or.inr (Or.inr ⟨s, rfl⟩)
